import Mathlib

/-!
Shallow embedding of `AkComponentCallbackManager.cpp` (Wwise integration,
`FAkComponentCallbackManager` and its callback packages).

Modelling choices:
* Packages live on a heap keyed by numeric ids (`pkgs`); `delete` removes the
  id from the heap and appends it to the `freed` log, so a double free is
  visible as a repeated entry in `freed` (or a free of an id absent from the
  heap).
* The `TMap<AkGameObjectID, PackageSet>` is an association list; `TSet` is a
  duplicate-free list (`setAdd` inserts only when absent, mirroring
  `TSet::Add`; removal is `List.erase`, mirroring `TSet::Remove`).
* `void*` cookies are the inductive `Ptr` (null, a package pointer, or an
  opaque user cookie value).
* Invoking a user function pointer is recorded as a `Call` event carrying the
  function identity, the event type, and the cookie value the callback sees.
* The trampoline additionally emits an abstract `TraceEv` list recording the
  order of map-removal, handler invocation and package free.
* Only the `FunctionPointer` package variant carries data that the verified
  claims inspect, so the heap stores that record; the other two variants share
  the same registry behaviour (flags plus `HandleAction`).
* Dereferencing a dangling package pointer is undefined behaviour in the C++;
  the model's trampoline is a no-op when the cookie's package id is not live,
  and every claim exercises live packages only.
-/

/-- A `void*` value as the manager uses it: null, a pointer to a callback
package, or an opaque user-supplied cookie. -/
inductive Ptr where
  | null : Ptr
  | pkg (id : Nat) : Ptr
  | user (v : Nat) : Ptr
deriving DecidableEq, Repr

/-- `FAkFunctionPtrEventCallbackPackage`: optional user function pointer
(identified by a number), the user cookie, and the `uUserFlags` mask. -/
structure Package where
  pfnUserCallback : Option Nat
  pUserCookie : Ptr
  uUserFlags : Nat
deriving DecidableEq, Repr

/-- The fields of `AkCallbackInfo` this code reads and writes. -/
structure CallbackInfo where
  pCookie : Ptr
  gameObjID : Nat
deriving DecidableEq, Repr

/-- A record of one synchronous invocation of a user callback function:
which function, the event type passed, and the cookie visible in the
callback info during the call. -/
structure Call where
  fn : Nat
  eType : Nat
  cookie : Ptr
deriving DecidableEq, Repr

/-- Abstract events emitted by the trampoline, in execution order. -/
inductive TraceEv where
  | mapRemove (pid : Nat) : TraceEv
  | invoke (pid : Nat) : TraceEv
  | free (pid : Nat) : TraceEv
deriving DecidableEq, Repr

/-- `AK_EndOfEvent` from the Wwise SDK callback-type enumeration (0x0001). -/
def AK_EndOfEvent : Nat := 1

/-- `FAkComponentCallbackManager_Constants::Optimize`. -/
inductive Optimize where
  | MemoryUsage : Optimize
  | Speed : Optimize
deriving DecidableEq, Repr

/-- `Optimize::Value = MemoryUsage` in the source. -/
def OptimizeValue : Optimize := Optimize.MemoryUsage

abbrev PackageSet := List Nat

abbrev GameObjMap := List (Nat × PackageSet)

/-- `TMap::Find`: first entry with the given key. -/
def mapFind : GameObjMap → Nat → Option PackageSet
  | [], _ => none
  | (k, v) :: rest, g => if k = g then some v else mapFind rest g

/-- Store a value under a key: replace the first entry with that key, or
append a fresh entry (the effect of `FindOrAdd` followed by mutation). -/
def mapStore : GameObjMap → Nat → PackageSet → GameObjMap
  | [], g, v => [(g, v)]
  | (k, w) :: rest, g, v =>
      if k = g then (k, v) :: rest else (k, w) :: mapStore rest g v

/-- `TMap::Remove`: drop the first entry with the given key. -/
def mapErase : GameObjMap → Nat → GameObjMap
  | [], _ => []
  | (k, w) :: rest, g => if k = g then rest else (k, w) :: mapErase rest g

/-- `TSet::Add`: insert the element if it is not already a member. -/
def setAdd (l : PackageSet) (pid : Nat) : PackageSet :=
  if pid ∈ l then l else l ++ [pid]

/-- The manager state: the game-object map, the heap of live packages, the
log of `delete` calls, the allocator counter, and whether the process-wide
`Instance` pointer is set. -/
structure State where
  map : GameObjMap
  pkgs : List (Nat × Package)
  freed : List Nat
  nextId : Nat
  hasInstance : Bool
deriving DecidableEq, Repr

/-- The state right after `FAkComponentCallbackManager` is constructed. -/
def initialState : State :=
  { map := [], pkgs := [], freed := [], nextId := 0, hasInstance := true }

/-- Look up a live package by id. -/
def lookupPkg : List (Nat × Package) → Nat → Option Package
  | [], _ => none
  | (k, p) :: rest, pid => if k = pid then some p else lookupPkg rest pid

/-- `delete pPackage`: the package leaves the heap and the free is logged. -/
def deletePkg (s : State) (pid : Nat) : State :=
  { s with pkgs := s.pkgs.filter (fun q => q.1 ≠ pid),
           freed := s.freed ++ [pid] }

/-- `FAkFunctionPtrEventCallbackPackage::HandleAction`: when a user function
pointer exists, set the cookie to the user cookie, call the function, then
restore the cookie to the package itself; otherwise do nothing. -/
def HandleAction (selfId : Nat) (p : Package) (e : Nat) (info : CallbackInfo) :
    CallbackInfo × List Call :=
  match p.pfnUserCallback with
  | some fn =>
      let infoDuring := { info with pCookie := p.pUserCookie }
      let call : Call := ⟨fn, e, infoDuring.pCookie⟩
      let infoAfter := { infoDuring with pCookie := Ptr.pkg selfId }
      (infoAfter, [call])
  | none => (info, [])

/-- `FAkComponentCallbackManager::RemovePackageFromSet`: remove the package
from the set (already looked up as `l`), and under the `MemoryUsage` policy
drop the map entry when the set became empty. -/
def RemovePackageFromSet (s : State) (g : Nat) (l : PackageSet) (pid : Nat) :
    State :=
  let lNew := l.erase pid
  let m1 := mapStore s.map g lNew
  if OptimizeValue = Optimize.MemoryUsage ∧ lNew.length = 0 then
    { s with map := mapErase m1 g }
  else
    { s with map := m1 }

/-- `CreateCallbackPackage` (function-pointer overload): allocate the package
and add it to the set for the game object, creating the set when absent.
Returns the updated state and the new package's id. -/
def CreateCallbackPackage (s : State) (fn : Option Nat) (ck : Ptr)
    (flags : Nat) (g : Nat) : State × Nat :=
  let pid := s.nextId
  let oldSet := (mapFind s.map g).getD []
  ({ s with pkgs := s.pkgs ++ [(pid, ⟨fn, ck, flags⟩)],
            map := mapStore s.map g (setAdd oldSet pid),
            nextId := pid + 1 }, pid)

/-- `RemoveCallbackPackage`: under the lock, remove the handle from its set
when the set exists; then (unconditionally) `delete` the handle. -/
def RemoveCallbackPackage (s : State) (pid : Nat) (g : Nat) : State :=
  let s1 :=
    match mapFind s.map g with
    | some l => RemovePackageFromSet s g l pid
    | none => s
  deletePkg s1 pid

/-- `RegisterGameObject`: only under the `Speed` policy pre-create the set
with reserved capacity; a no-op under `MemoryUsage`. -/
def RegisterGameObject (s : State) (g : Nat) : State :=
  if OptimizeValue = Optimize.Speed then
    { s with map := mapStore s.map g ((mapFind s.map g).getD []) }
  else s

/-- `UnregisterGameObject`: after the external cancellation call, delete every
package in the game object's set and remove the map entry. -/
def UnregisterGameObject (s : State) (g : Nat) : State :=
  match mapFind s.map g with
  | some l =>
      { s with map := mapErase s.map g,
               pkgs := s.pkgs.filter (fun q => q.1 ∉ l),
               freed := s.freed ++ l }
  | none => s

/-- `HasActiveEvents`: true iff the set exists and is non-empty. -/
def HasActiveEvents (s : State) (g : Nat) : Bool :=
  match mapFind s.map g with
  | some l => l.length > 0
  | none => false

/-- The scoped-lock block of `AkComponentCallback` (lines 73-81): when a set
exists for the game object and the event is end-of-event, remove the package
from the set and mark it for deletion. Returns the new state and the
`deletePackage` flag. -/
def lockStep (s : State) (g : Nat) (pid : Nat) (e : Nat) : State × Bool :=
  match mapFind s.map g with
  | some l =>
      if e = AK_EndOfEvent then (RemovePackageFromSet s g l pid, true)
      else (s, false)
  | none => (s, false)

/-- `AkComponentCallback`, the engine trampoline. Returns the new state, the
callback info after the call, the user-function calls made, and the abstract
event trace in execution order: map removal (under the lock), then the
handler invocation, then the deferred free. -/
def AkComponentCallback (s : State) (e : Nat) (info : CallbackInfo) :
    State × CallbackInfo × List Call × List TraceEv :=
  match info.pCookie with
  | Ptr.pkg pid =>
      if s.hasInstance then
        match lookupPkg s.pkgs pid with
        | some p =>
            let ls := lockStep s info.gameObjID pid e
            let s1 := ls.1
            let deletePackage := ls.2
            let doHandle := p.uUserFlags.land e ≠ 0
            let ha := HandleAction pid p e info
            let info1 := if doHandle then ha.1 else info
            let calls := if doHandle then ha.2 else []
            let s2 := if deletePackage then deletePkg s1 pid else s1
            let tr :=
              (if deletePackage then [TraceEv.mapRemove pid] else []) ++
              (if doHandle then [TraceEv.invoke pid] else []) ++
              (if deletePackage then [TraceEv.free pid] else [])
            (s2, info1, calls, tr)
        | none => (s, info, [], [])
      else (s, info, [], [])
  | _ => (s, info, [], [])

/-- `~FAkComponentCallbackManager`: delete every package held in the map and
clear the process-wide instance pointer. -/
def DestroyManager (s : State) : State :=
  let allIds := (s.map.map Prod.snd).flatten
  { map := [], pkgs := s.pkgs.filter (fun q => q.1 ∉ allIds),
    freed := s.freed ++ allIds, nextId := s.nextId, hasInstance := false }

/-- Result of running the constructor with a given prior value of the global
`Instance` pointer: the new pointer value and whether the duplicate-instance
error was logged. -/
structure ConstructResult where
  newInstancePtr : Option Nat
  loggedError : Bool
deriving DecidableEq, Repr

/-- `FAkComponentCallbackManager::FAkComponentCallbackManager`: log an error
when `Instance` is already set, then overwrite `Instance` with `this`. -/
def ConstructManager (inst : Option Nat) (thisId : Nat) : ConstructResult :=
  { newInstancePtr := some thisId, loggedError := inst.isSome }

/-- The set the registry currently holds for a game object (empty when the
map has no entry). -/
def setFor (s : State) (g : Nat) : PackageSet :=
  (mapFind s.map g).getD []

/-- Ids of the live (allocated, unfreed) packages. -/
def livePkgIds (s : State) : List Nat :=
  s.pkgs.map Prod.fst

/-- Ids of all packages reachable from the game-object map. -/
def mappedPkgIds (s : State) : List Nat :=
  (s.map.map Prod.snd).flatten

/-- The map's keys are duplicate-free (`TMap` semantics; holds for every
state the registry operations can reach). -/
def KeysNodup (m : GameObjMap) : Prop :=
  (m.map Prod.fst).Nodup

/-- Every set present in the map is non-empty. -/
def NoEmptySets (s : State) : Prop :=
  ∀ gl ∈ s.map, gl.2 ≠ ([] : PackageSet)

/-- Create/remove operations on one game object, for the single-id
membership invariant. -/
inductive SetOp where
  | create (fn : Option Nat) (ck : Ptr) (flags : Nat) : SetOp
  | removeOp (pid : Nat) : SetOp
deriving DecidableEq, Repr

/-- Run a sequence of create/remove operations against game object `g`. -/
def runOps (g : Nat) : State → List SetOp → State
  | s, [] => s
  | s, SetOp.create fn ck fl :: rest =>
      runOps g (CreateCallbackPackage s fn ck fl g).1 rest
  | s, SetOp.removeOp pid :: rest =>
      runOps g (RemoveCallbackPackage s pid g) rest

/-- Whether the operation list contains a removal of the given package id. -/
def removedIn : List SetOp → Nat → Bool
  | [], _ => false
  | SetOp.removeOp q :: rest, pid => q = pid || removedIn rest pid
  | SetOp.create _ _ _ :: rest, pid => removedIn rest pid

/-- Specification-side characterization of the claim "created and not yet
removed": the ids the operation list allocates (sequentially from `nid`)
whose creation is not followed by a removal. -/
def survivors (nid : Nat) : List SetOp → List Nat
  | [] => []
  | SetOp.create _ _ _ :: rest =>
      (if removedIn rest nid then [] else [nid]) ++ survivors (nid + 1) rest
  | SetOp.removeOp _ :: rest => survivors nid rest

/-- Any single registry operation, for operation-indexed invariants. -/
inductive MgrOp where
  | createOp (fn : Option Nat) (ck : Ptr) (flags : Nat) (g : Nat) : MgrOp
  | removePkg (pid : Nat) (g : Nat) : MgrOp
  | registerGO (g : Nat) : MgrOp
  | unregisterGO (g : Nat) : MgrOp
  | callback (e : Nat) (info : CallbackInfo) : MgrOp
deriving DecidableEq, Repr

/-- Apply one registry operation to the state. -/
def applyOp (s : State) : MgrOp → State
  | MgrOp.createOp fn ck fl g => (CreateCallbackPackage s fn ck fl g).1
  | MgrOp.removePkg pid g => RemoveCallbackPackage s pid g
  | MgrOp.registerGO g => RegisterGameObject s g
  | MgrOp.unregisterGO g => UnregisterGameObject s g
  | MgrOp.callback e info => (AkComponentCallback s e info).1

/-- C1 scenario: one FunctionPointer package registered for game object 42
from a fresh registry. -/
def scenarioC1 (fn : Nat) (ck : Ptr) (flags : Nat) : State × Nat :=
  CreateCallbackPackage initialState (some fn) ck flags 42

/-- C1 scenario: the trampoline fires end-of-event for game object 42 with
the package as its cookie. -/
def scenarioC1Run (fn : Nat) (ck : Ptr) (flags : Nat) :
    State × CallbackInfo × List Call × List TraceEv :=
  AkComponentCallback (scenarioC1 fn ck flags).1 AK_EndOfEvent
    ⟨Ptr.pkg (scenarioC1 fn ck flags).2, 42⟩

/-- A state holding package 0 for game object 5 and package 1 for game
object 7. -/
def twoObjState : State :=
  (CreateCallbackPackage
    (CreateCallbackPackage initialState (some 0) Ptr.null 1 5).1
    (some 1) Ptr.null 1 7).1

/-- A state holding packages 0 and 1, both for game object 7. -/
def twoPkgState7 : State :=
  (CreateCallbackPackage
    (CreateCallbackPackage initialState (some 0) Ptr.null 1 7).1
    (some 1) Ptr.null 1 7).1

/-- A state holding a single package 0 for game object 3. -/
def oneCreateState : State :=
  (CreateCallbackPackage initialState (some 0) Ptr.null 1 3).1

/-! ### Lemmas about the association-list map and the package heap -/

theorem mapFind_store_self (m : GameObjMap) (g : Nat) (v : PackageSet) :
    mapFind (mapStore m g v) g = some v := by
  induction m with
  | nil => simp [mapStore, mapFind]
  | cons a rest ih =>
      obtain ⟨k, w⟩ := a
      by_cases h : k = g
      · simp [mapStore, mapFind, h]
      · simp [mapStore, mapFind, h, ih]

theorem mapErase_sublist (m : GameObjMap) (g : Nat) :
    (mapErase m g).Sublist m := by
  induction m with
  | nil => simp [mapErase]
  | cons a rest ih =>
      obtain ⟨k, w⟩ := a
      by_cases h : k = g
      · simp only [mapErase, h, if_true, eq_self_iff_true]
        exact List.sublist_cons_self _ _
      · simpa [mapErase, h] using ih.cons₂ (k, w)

theorem mem_mapStore {m : GameObjMap} {g : Nat} {v : PackageSet}
    {x : Nat × PackageSet} (h : x ∈ mapStore m g v) : x = (g, v) ∨ x ∈ m := by
  induction m with
  | nil =>
      simp only [mapStore, List.mem_singleton] at h
      exact Or.inl h
  | cons a rest ih =>
      obtain ⟨k, w⟩ := a
      by_cases hk : k = g
      · simp only [mapStore, hk, if_true, eq_self_iff_true, List.mem_cons] at h
        rcases h with h1 | h1
        · exact Or.inl (by simp [h1, hk])
        · exact Or.inr (List.mem_cons_of_mem _ h1)
      · simp only [mapStore, hk, if_false, List.mem_cons] at h
        rcases h with h1 | h1
        · exact Or.inr (by simp [h1])
        · rcases ih h1 with h2 | h2
          · exact Or.inl h2
          · exact Or.inr (List.mem_cons_of_mem _ h2)

theorem mapErase_store (m : GameObjMap) (g : Nat) (v : PackageSet) :
    mapErase (mapStore m g v) g = mapErase m g := by
  induction m with
  | nil => simp [mapStore, mapErase]
  | cons a rest ih =>
      obtain ⟨k, w⟩ := a
      by_cases hk : k = g
      · simp [mapStore, mapErase, hk]
      · simp [mapStore, mapErase, hk, ih]

theorem mapFind_eq_none (m : GameObjMap) (g : Nat)
    (h : g ∉ m.map Prod.fst) : mapFind m g = none := by
  induction m with
  | nil => rfl
  | cons a rest ih =>
      obtain ⟨k, w⟩ := a
      simp only [List.map_cons, List.mem_cons, not_or] at h
      have hk : k ≠ g := fun hkg => h.1 hkg.symm
      simp [mapFind, hk, ih h.2]

theorem mapFind_erase_self (m : GameObjMap) (g : Nat) :
    KeysNodup m → mapFind (mapErase m g) g = none := by
  induction m with
  | nil => intro _; rfl
  | cons a rest ih =>
      obtain ⟨k, w⟩ := a
      intro hk
      rw [KeysNodup, List.map_cons, List.nodup_cons] at hk
      by_cases h : k = g
      · subst h
        simpa [mapErase] using mapFind_eq_none rest k hk.1
      · simp [mapErase, h, mapFind, ih hk.2]

theorem keys_mapStore (m : GameObjMap) (g : Nat) (v : PackageSet) :
    (mapStore m g v).map Prod.fst =
      if g ∈ m.map Prod.fst then m.map Prod.fst
      else m.map Prod.fst ++ [g] := by
  induction m with
  | nil => simp [mapStore]
  | cons a rest ih =>
      obtain ⟨k, w⟩ := a
      by_cases hk : k = g
      · subst hk
        simp [mapStore]
      · have hgk : ¬ g = k := fun h => hk h.symm
        by_cases hg : g ∈ rest.map Prod.fst
        · simp [mapStore, hk, ih, hg, hgk]
        · simp [mapStore, hk, ih, hg, hgk]

theorem keysNodup_store (m : GameObjMap) (g : Nat) (v : PackageSet)
    (h : KeysNodup m) : KeysNodup (mapStore m g v) := by
  rw [KeysNodup] at h
  rw [KeysNodup, keys_mapStore]
  by_cases hg : g ∈ m.map Prod.fst
  · simpa [hg] using h
  · simp [hg, List.nodup_append, h, List.disjoint_singleton]

theorem keysNodup_erase (m : GameObjMap) (g : Nat) (h : KeysNodup m) :
    KeysNodup (mapErase m g) :=
  List.Nodup.sublist (List.Sublist.map Prod.fst (mapErase_sublist m g)) h

theorem setAdd_ne_nil (l : PackageSet) (pid : Nat) : setAdd l pid ≠ [] := by
  unfold setAdd
  by_cases h : pid ∈ l
  · simpa [h] using List.ne_nil_of_mem h
  · simp [h]

theorem setAdd_not_mem (l : PackageSet) (pid : Nat) (h : pid ∉ l) :
    setAdd l pid = l ++ [pid] := by
  simp [setAdd, h]

theorem lookupPkg_filter_ne (L : List (Nat × Package)) (pid : Nat) :
    lookupPkg (L.filter fun q => q.1 ≠ pid) pid = none := by
  induction L with
  | nil => rfl
  | cons a L ih =>
      obtain ⟨k, p⟩ := a
      by_cases h : k = pid
      · simpa [List.filter_cons, h] using ih
      · simpa [List.filter_cons, h, lookupPkg] using ih

theorem lookupPkg_filter_subset (L : List (Nat × Package)) (l : PackageSet)
    (x : Nat) (hx : x ∈ l) :
    lookupPkg (L.filter fun q => q.1 ∉ l) x = none := by
  induction L with
  | nil => rfl
  | cons a L ih =>
      obtain ⟨k, p⟩ := a
      by_cases h : k ∈ l
      · simpa [List.filter_cons, h] using ih
      · have hne : k ≠ x := fun he => h (he ▸ hx)
        simpa [List.filter_cons, h, lookupPkg, hne] using ih

/-- Under the compiled `MemoryUsage` policy, `RemovePackageFromSet` only
rewrites the map: store the shrunken set, or erase the entry when it became
empty. -/
theorem removePackageFromSet_def (s : State) (g : Nat) (l : PackageSet)
    (pid : Nat) :
    RemovePackageFromSet s g l pid =
      { s with map :=
          if (l.erase pid).length = 0 then
            mapErase (mapStore s.map g (l.erase pid)) g
          else mapStore s.map g (l.erase pid) } := by
  unfold RemovePackageFromSet OptimizeValue
  simp only [eq_self_iff_true, true_and]
  exact (apply_ite (fun mp => { s with map := mp })
    ((l.erase pid).length = 0) _ _).symm

theorem noEmptySets_removePackageFromSet (s : State) (g : Nat)
    (l : PackageSet) (pid : Nat) (h : NoEmptySets s) :
    NoEmptySets (RemovePackageFromSet s g l pid) := by
  rw [removePackageFromSet_def]
  intro gl hgl
  by_cases hlen : (l.erase pid).length = 0
  · simp only [if_pos hlen, mapErase_store] at hgl
    exact h gl ((mapErase_sublist s.map g).subset hgl)
  · simp only [if_neg hlen] at hgl
    rcases mem_mapStore hgl with h1 | h1
    · rw [h1]
      intro he
      have he2 : l.erase pid = [] := he
      exact hlen (by rw [he2]; rfl)
    · exact h gl h1

theorem removeCallbackPackage_nextId (s : State) (pid : Nat) (g : Nat) :
    (RemoveCallbackPackage s pid g).nextId = s.nextId := by
  unfold RemoveCallbackPackage
  cases hf : mapFind s.map g <;>
    simp [deletePkg, removePackageFromSet_def]

theorem removeCallbackPackage_map_of_none (s : State) (pid : Nat) (g : Nat)
    (hf : mapFind s.map g = none) :
    (RemoveCallbackPackage s pid g).map = s.map := by
  unfold RemoveCallbackPackage
  simp [hf, deletePkg]

theorem removeCallbackPackage_freed (s : State) (pid : Nat) (g : Nat) :
    (RemoveCallbackPackage s pid g).freed = s.freed ++ [pid] := by
  unfold RemoveCallbackPackage
  cases hf : mapFind s.map g <;>
    simp [deletePkg, removePackageFromSet_def]

theorem setFor_remove (s : State) (q : Nat) (g : Nat) (hk : KeysNodup s.map) :
    setFor (RemoveCallbackPackage s q g) g = (setFor s g).erase q := by
  unfold RemoveCallbackPackage
  cases hf : mapFind s.map g with
  | none => simp [deletePkg, setFor, hf]
  | some l =>
      by_cases hlen : (l.erase q).length = 0
      · have hnil : l.erase q = [] := List.length_eq_zero.mp hlen
        simp [deletePkg, setFor, removePackageFromSet_def, hlen,
          mapErase_store, mapFind_erase_self s.map g hk, hf, hnil]
      · simp [deletePkg, setFor, removePackageFromSet_def, hlen,
          mapFind_store_self, hf]

theorem keysNodup_remove (s : State) (q : Nat) (g : Nat)
    (hk : KeysNodup s.map) :
    KeysNodup (RemoveCallbackPackage s q g).map := by
  unfold RemoveCallbackPackage
  cases hf : mapFind s.map g with
  | none => simpa [deletePkg] using hk
  | some l =>
      by_cases hlen : (l.erase q).length = 0
      · simp only [removePackageFromSet_def, if_pos hlen, deletePkg]
        exact keysNodup_erase _ _ (keysNodup_store _ _ _ hk)
      · simp only [removePackageFromSet_def, if_neg hlen, deletePkg]
        exact keysNodup_store _ _ _ hk

theorem setFor_create (s : State) (fn : Option Nat) (ck : Ptr) (flags : Nat)
    (g : Nat) (hfresh : s.nextId ∉ setFor s g) :
    setFor (CreateCallbackPackage s fn ck flags g).1 g =
      setFor s g ++ [s.nextId] := by
  have hfresh2 : s.nextId ∉ (mapFind s.map g).getD [] := hfresh
  unfold CreateCallbackPackage
  simp [setFor, mapFind_store_self, setAdd_not_mem _ _ hfresh2]

theorem keysNodup_create (s : State) (fn : Option Nat) (ck : Ptr)
    (flags : Nat) (g : Nat) (hk : KeysNodup s.map) :
    KeysNodup (CreateCallbackPackage s fn ck flags g).1.map := by
  unfold CreateCallbackPackage
  exact keysNodup_store _ _ _ hk

/-! ### Claim theorems -/

/-- C4: `hasActiveEvents(id)` returns true if and only if a package set
exists for `id` in the map and that set is non-empty; in particular it is
false for an id never registered (no map entry) and for an id whose set has
been fully drained (entry removed under the `MemoryUsage` policy). -/
theorem spec_C4_hasActiveEvents_iff (s : State) (g : Nat) :
    HasActiveEvents s g = true ↔
      ∃ l, mapFind s.map g = some l ∧ l ≠ [] := by
  unfold HasActiveEvents
  cases hf : mapFind s.map g with
  | none => simp
  | some l => simp [List.length_pos]

/-- C6: the FunctionPointer variant's `HandleAction` with a user function
pointer supplied invokes the function exactly once, during the call the
callback info's cookie field holds the original user cookie, and after the
call returns the cookie field again points at the package itself; with no
function pointer supplied it is a no-op leaving the callback info
unchanged. -/
theorem spec_C6_handleAction (selfId : Nat) (p : Package) (e : Nat)
    (info : CallbackInfo) :
    (∀ fn, p.pfnUserCallback = some fn →
      (HandleAction selfId p e info).2 = [⟨fn, e, p.pUserCookie⟩] ∧
      (HandleAction selfId p e info).1.pCookie = Ptr.pkg selfId ∧
      (HandleAction selfId p e info).1.gameObjID = info.gameObjID) ∧
    (p.pfnUserCallback = none →
      HandleAction selfId p e info = (info, [])) := by
  constructor
  · intro fn hfn
    simp [HandleAction, hfn]
  · intro hnone
    simp [HandleAction, hnone]

/-- Witness for C6 at a concrete package. -/
theorem spec_C6_handleAction_witness :
    (HandleAction 3 ⟨some 5, Ptr.user 9, 1⟩ 1 ⟨Ptr.pkg 3, 42⟩).2 =
        [⟨5, 1, Ptr.user 9⟩] ∧
      (HandleAction 3 ⟨some 5, Ptr.user 9, 1⟩ 1 ⟨Ptr.pkg 3, 42⟩).1.pCookie =
        Ptr.pkg 3 ∧
      (HandleAction 3 ⟨some 5, Ptr.user 9, 1⟩ 1 ⟨Ptr.pkg 3, 42⟩).1.gameObjID =
        (⟨Ptr.pkg 3, 42⟩ : CallbackInfo).gameObjID :=
  (spec_C6_handleAction 3 ⟨some 5, Ptr.user 9, 1⟩ 1 ⟨Ptr.pkg 3, 42⟩).1 5 rfl

/-- C8: constructing a second registry while one exists logs the
duplicate-instance error but completes, and the process-wide pointer
afterwards tracks the newer instance. -/
theorem spec_C8_duplicate_construction (inst : Option Nat) (thisId : Nat)
    (hdup : inst.isSome = true) :
    (ConstructManager inst thisId).loggedError = true ∧
    (ConstructManager inst thisId).newInstancePtr = some thisId := by
  constructor
  · simp [ConstructManager, hdup]
  · rfl

/-- Witness for C8: a second instance over an existing one. -/
theorem spec_C8_duplicate_construction_witness :
    (some 0 : Option Nat).isSome = true ∧
      (ConstructManager (some 0) 1).loggedError = true ∧
      (ConstructManager (some 0) 1).newInstancePtr = some 1 :=
  ⟨rfl, spec_C8_duplicate_construction (some 0) 1 rfl⟩

/-- Single-id membership characterization, generalized over the starting
state for the induction. -/
theorem runOps_mem_iff (g : Nat) :
    ∀ (ops : List SetOp) (s : State), KeysNodup s.map →
      (∀ x ∈ setFor s g, x < s.nextId) → (setFor s g).Nodup →
      ∀ pid, (pid ∈ setFor (runOps g s ops) g ↔
        ((pid ∈ setFor s g ∧ removedIn ops pid = false) ∨
          pid ∈ survivors s.nextId ops)) := by
  intro ops
  induction ops with
  | nil =>
      intro s hk hb hn pid
      simp [runOps, survivors, removedIn]
  | cons op rest ih =>
      intro s hk hb hn pid
      cases op with
      | create fn ck fl =>
          have hfresh : s.nextId ∉ setFor s g := fun hmem =>
            Nat.lt_irrefl s.nextId (hb _ hmem)
          have hstep := setFor_create s fn ck fl g hfresh
          have hk2 := keysNodup_create s fn ck fl g hk
          have hnext : (CreateCallbackPackage s fn ck fl g).1.nextId =
              s.nextId + 1 := rfl
          have hb2 : ∀ x ∈ setFor (CreateCallbackPackage s fn ck fl g).1 g,
              x < (CreateCallbackPackage s fn ck fl g).1.nextId := by
            intro x hx
            rw [hstep] at hx
            rw [hnext]
            rcases List.mem_append.mp hx with hx1 | hx1
            · exact Nat.lt_succ_of_lt (hb _ hx1)
            · rw [List.mem_singleton] at hx1
              omega
          have hn2 : (setFor (CreateCallbackPackage s fn ck fl g).1 g).Nodup := by
            rw [hstep]
            simp [List.nodup_append, hn, List.disjoint_singleton, hfresh]
          have hIH := ih (CreateCallbackPackage s fn ck fl g).1 hk2 hb2 hn2 pid
          rw [show runOps g s (SetOp.create fn ck fl :: rest) =
                runOps g (CreateCallbackPackage s fn ck fl g).1 rest from rfl]
          rw [hIH, hstep, hnext]
          simp only [removedIn, survivors, List.mem_append, List.mem_singleton]
          by_cases hpid : pid = s.nextId
          · subst hpid
            by_cases hrem : removedIn rest s.nextId <;> simp [hrem, hfresh]
          · by_cases hrem : removedIn rest s.nextId <;> simp [hrem, hpid]
      | removeOp q =>
          have hset2 := setFor_remove s q g hk
          have hk2 := keysNodup_remove s q g hk
          have hnext := removeCallbackPackage_nextId s q g
          have hb2 : ∀ x ∈ setFor (RemoveCallbackPackage s q g) g,
              x < (RemoveCallbackPackage s q g).nextId := by
            intro x hx
            rw [hset2] at hx
            rw [hnext]
            exact hb _ (List.mem_of_mem_erase hx)
          have hn2 : (setFor (RemoveCallbackPackage s q g) g).Nodup := by
            rw [hset2]
            exact hn.erase q
          have hIH := ih (RemoveCallbackPackage s q g) hk2 hb2 hn2 pid
          rw [show runOps g s (SetOp.removeOp q :: rest) =
                runOps g (RemoveCallbackPackage s q g) rest from rfl]
          rw [hIH, hset2, hnext]
          rw [List.Nodup.mem_erase_iff hn]
          simp only [removedIn, survivors, Bool.or_eq_false_iff,
            decide_eq_false_iff_not]
          constructor
          · rintro (⟨⟨hne, hmem⟩, hrest⟩ | hs)
            · exact Or.inl ⟨hmem, fun hq => hne hq.symm, hrest⟩
            · exact Or.inr hs
          · rintro (⟨hmem, hqne, hrest⟩ | hs)
            · exact Or.inl ⟨⟨fun hq => hqne hq.symm, hmem⟩, hrest⟩
            · exact Or.inr hs

/-- C3: for every sequence of create/remove operations on a single game
object, membership in the registry's set for that object is exactly
"created by the sequence and not removed later". -/
theorem spec_C3_set_membership (g : Nat) (ops : List SetOp) (pid : Nat) :
    pid ∈ setFor (runOps g initialState ops) g ↔ pid ∈ survivors 0 ops := by
  have h := runOps_mem_iff g ops initialState
    (by simp [KeysNodup, initialState])
    (by intro x hx; simp [setFor, initialState, mapFind] at hx)
    (by simp [setFor, initialState, mapFind])
    pid
  simpa [setFor, initialState, mapFind] using h

/-- C10: under the compiled `MemoryUsage` policy every registry operation
preserves the invariant that no map entry holds an empty package set. -/
theorem spec_C10_no_empty_sets (s : State) (op : MgrOp)
    (h : NoEmptySets s) : NoEmptySets (applyOp s op) := by
  cases op with
  | createOp fn ck fl g =>
      intro gl hgl
      have hgl2 : gl ∈ mapStore s.map g
          (setAdd ((mapFind s.map g).getD []) s.nextId) := hgl
      rcases mem_mapStore hgl2 with h1 | h1
      · rw [h1]
        exact setAdd_ne_nil _ _
      · exact h gl h1
  | removePkg pid g =>
      show NoEmptySets (RemoveCallbackPackage s pid g)
      unfold RemoveCallbackPackage
      cases hf : mapFind s.map g with
      | none =>
          intro gl hgl
          exact h gl hgl
      | some l =>
          intro gl hgl
          exact noEmptySets_removePackageFromSet s g l pid h gl hgl
  | registerGO g =>
      show NoEmptySets (RegisterGameObject s g)
      unfold RegisterGameObject
      rw [if_neg (by simp [OptimizeValue])]
      exact h
  | unregisterGO g =>
      show NoEmptySets (UnregisterGameObject s g)
      unfold UnregisterGameObject
      cases hf : mapFind s.map g with
      | none => exact h
      | some l =>
          intro gl hgl
          exact h gl ((mapErase_sublist s.map g).subset hgl)
  | callback e info =>
      obtain ⟨ck, gid⟩ := info
      cases ck with
      | null => exact h
      | user v => exact h
      | pkg pid =>
          show NoEmptySets ((AkComponentCallback s e ⟨Ptr.pkg pid, gid⟩).1)
          cases hinst : s.hasInstance with
          | false => simp [AkComponentCallback, hinst]; exact h
          | true =>
              cases hlk : lookupPkg s.pkgs pid with
              | none =>
                  simp [AkComponentCallback, hinst, hlk]
                  exact h
              | some p =>
                  simp only [AkComponentCallback, hinst, hlk, if_true,
                    eq_self_iff_true]
                  unfold lockStep
                  cases hf : mapFind s.map gid with
                  | none =>
                      simp
                      exact h
                  | some l =>
                      by_cases he : e = AK_EndOfEvent
                      · simp only [he, if_pos rfl]
                        intro gl hgl
                        exact noEmptySets_removePackageFromSet
                          s gid l pid h gl hgl
                      · simp [he]
                        exact h

/-- Witness for C10 at a concrete state and operation. -/
theorem spec_C10_no_empty_sets_witness :
    NoEmptySets initialState ∧
      NoEmptySets (applyOp initialState (MgrOp.createOp (some 0) Ptr.null 1 3)) :=
  ⟨by simp [NoEmptySets, initialState], spec_C10_no_empty_sets initialState
    (MgrOp.createOp (some 0) Ptr.null 1 3) (by simp [NoEmptySets, initialState])⟩

/-- C1: from a fresh registry, a FunctionPointer package for game object 42
whose flag mask includes end-of-event, hit by an end-of-event trampoline
call for 42, has its user function invoked exactly once with the original
user cookie visible during the call, is freed, and afterwards
`hasActiveEvents(42)` is false. -/
theorem spec_C1_end_of_event_scenario (fn : Nat) (ck : Ptr) (flags : Nat)
    (hmask : flags.land AK_EndOfEvent ≠ 0) :
    (scenarioC1Run fn ck flags).2.2.1 = [⟨fn, AK_EndOfEvent, ck⟩] ∧
    (scenarioC1Run fn ck flags).1.freed = [(scenarioC1 fn ck flags).2] ∧
    lookupPkg (scenarioC1Run fn ck flags).1.pkgs
      (scenarioC1 fn ck flags).2 = none ∧
    HasActiveEvents (scenarioC1Run fn ck flags).1 42 = false := by
  unfold scenarioC1Run scenarioC1
  simp [CreateCallbackPackage, initialState, AkComponentCallback, lookupPkg,
    lockStep, mapFind, mapStore, setAdd, removePackageFromSet_def,
    mapErase, HandleAction, deletePkg, HasActiveEvents, hmask, List.filter]

/-- Witness for C1 at a concrete function, cookie and flag mask. -/
theorem spec_C1_end_of_event_scenario_witness :
    Nat.land 1 AK_EndOfEvent ≠ 0 ∧
      ((scenarioC1Run 0 (Ptr.user 5) 1).2.2.1 =
          [⟨0, AK_EndOfEvent, Ptr.user 5⟩] ∧
        (scenarioC1Run 0 (Ptr.user 5) 1).1.freed =
          [(scenarioC1 0 (Ptr.user 5) 1).2] ∧
        lookupPkg (scenarioC1Run 0 (Ptr.user 5) 1).1.pkgs
          (scenarioC1 0 (Ptr.user 5) 1).2 = none ∧
        HasActiveEvents (scenarioC1Run 0 (Ptr.user 5) 1).1 42 = false) :=
  ⟨by decide, spec_C1_end_of_event_scenario 0 (Ptr.user 5) 1 (by decide)⟩

/-- C5: in every trampoline invocation, any map-removal event precedes any
handler invocation event, and any free event follows any handler invocation
event — the package is never freed before its handler runs within that
invocation. -/
theorem spec_C5_trace_ordering (s : State) (e : Nat) (info : CallbackInfo)
    (i j p q : Nat) :
    ((AkComponentCallback s e info).2.2.2[i]? = some (TraceEv.mapRemove p) →
      (AkComponentCallback s e info).2.2.2[j]? = some (TraceEv.invoke q) →
      i < j) ∧
    ((AkComponentCallback s e info).2.2.2[i]? = some (TraceEv.free p) →
      (AkComponentCallback s e info).2.2.2[j]? = some (TraceEv.invoke q) →
      j < i) := by
  obtain ⟨ck, g⟩ := info
  cases ck with
  | null => simp [AkComponentCallback]
  | user v => simp [AkComponentCallback]
  | pkg pid =>
      cases hinst : s.hasInstance with
      | false => simp [AkComponentCallback, hinst]
      | true =>
          cases hlk : lookupPkg s.pkgs pid with
          | none => simp [AkComponentCallback, hinst, hlk]
          | some P =>
              by_cases hd : (lockStep s g pid e).2 = true <;>
                by_cases hh : P.uUserFlags.land e ≠ 0 <;>
                simp only [AkComponentCallback, hinst, hlk, hd, hh,
                  if_true, if_false, eq_self_iff_true, not_true, not_false_iff,
                  ite_true, ite_false, List.append_nil, List.nil_append,
                  List.cons_append, List.singleton_append] <;>
                constructor <;>
                intro h1 h2 <;>
                rcases i with _ | _ | _ | i2 <;>
                rcases j with _ | _ | _ | j2 <;>
                simp_all

/-- Witness for C5 on a run whose trace contains all three events. -/
theorem spec_C5_trace_ordering_witness :
    ((scenarioC1Run 2 Ptr.null 1).2.2.2[0]? = some (TraceEv.mapRemove 0) ∧
      (scenarioC1Run 2 Ptr.null 1).2.2.2[1]? = some (TraceEv.invoke 0) ∧
      (scenarioC1Run 2 Ptr.null 1).2.2.2[2]? = some (TraceEv.free 0)) ∧
      (0 : Nat) < 1 ∧ (1 : Nat) < 2 :=
  ⟨by decide,
    (spec_C5_trace_ordering (scenarioC1 2 Ptr.null 1).1 AK_EndOfEvent
      ⟨Ptr.pkg (scenarioC1 2 Ptr.null 1).2, 42⟩ 0 1 0 0).1
      (by decide) (by decide),
    (spec_C5_trace_ordering (scenarioC1 2 Ptr.null 1).1 AK_EndOfEvent
      ⟨Ptr.pkg (scenarioC1 2 Ptr.null 1).2, 42⟩ 2 1 0 0).2
      (by decide) (by decide)⟩

/-- C9: with end-of-event, the trampoline frees the cookie's package as soon
as any set exists for the event's game object — membership of the package
in that set is not checked. Here the package is not a member, yet it is
freed. -/
theorem spec_C9_delete_without_membership (s : State) (pid : Nat)
    (p : Package) (g : Nat) (l : PackageSet) (hinst : s.hasInstance = true)
    (hp : lookupPkg s.pkgs pid = some p) (hset : mapFind s.map g = some l)
    (hnot : pid ∉ l) :
    (AkComponentCallback s AK_EndOfEvent ⟨Ptr.pkg pid, g⟩).1.freed =
        s.freed ++ [pid] ∧
    lookupPkg (AkComponentCallback s AK_EndOfEvent
        ⟨Ptr.pkg pid, g⟩).1.pkgs pid = none ∧
    TraceEv.free pid ∈
      (AkComponentCallback s AK_EndOfEvent ⟨Ptr.pkg pid, g⟩).2.2.2 := by
  have hlock : lockStep s g pid AK_EndOfEvent =
      (RemovePackageFromSet s g l pid, true) := by
    simp [lockStep, hset]
  have hrun : (AkComponentCallback s AK_EndOfEvent ⟨Ptr.pkg pid, g⟩).1 =
      deletePkg (RemovePackageFromSet s g l pid) pid := by
    by_cases hh : p.uUserFlags.land AK_EndOfEvent ≠ 0 <;>
      simp [AkComponentCallback, hinst, hp, hlock, hh]
  have htr : TraceEv.free pid ∈
      (AkComponentCallback s AK_EndOfEvent ⟨Ptr.pkg pid, g⟩).2.2.2 := by
    by_cases hh : p.uUserFlags.land AK_EndOfEvent ≠ 0 <;>
      simp [AkComponentCallback, hinst, hp, hlock, hh]
  refine ⟨?_, ?_, htr⟩
  · rw [hrun, removePackageFromSet_def]
    rfl
  · rw [hrun]
    exact lookupPkg_filter_ne _ pid

/-- Witness for C9: package 0 is registered under game object 5, yet an
end-of-event for game object 7 (whose set exists and does not contain 0)
frees package 0. -/
theorem spec_C9_delete_without_membership_witness :
    twoObjState.hasInstance = true ∧
      lookupPkg twoObjState.pkgs 0 = some ⟨some 0, Ptr.null, 1⟩ ∧
      mapFind twoObjState.map 7 = some [1] ∧
      (0 : Nat) ∉ ([1] : PackageSet) ∧
      ((AkComponentCallback twoObjState AK_EndOfEvent
          ⟨Ptr.pkg 0, 7⟩).1.freed = twoObjState.freed ++ [0] ∧
        lookupPkg (AkComponentCallback twoObjState AK_EndOfEvent
          ⟨Ptr.pkg 0, 7⟩).1.pkgs 0 = none ∧
        TraceEv.free 0 ∈ (AkComponentCallback twoObjState AK_EndOfEvent
          ⟨Ptr.pkg 0, 7⟩).2.2.2) :=
  ⟨rfl, by decide, by decide, by decide,
    spec_C9_delete_without_membership twoObjState 0 ⟨some 0, Ptr.null, 1⟩ 7 [1]
      rfl (by decide) (by decide) (by decide)⟩

/-- C2 counterexample: after `unregisterGameObject(7)` has freed both
packages of game object 7, a `removePackage` call for the already-freed
handle 0 is not a no-op — `RemoveCallbackPackage` deletes the handle
unconditionally, so the handle is freed a second time (double free),
visible as handle 0 occurring twice in the `freed` log. -/
theorem spec_C2_counterexample :
    (UnregisterGameObject twoPkgState7 7).freed = [0, 1] ∧
    RemoveCallbackPackage (UnregisterGameObject twoPkgState7 7) 0 7 ≠
      UnregisterGameObject twoPkgState7 7 ∧
    (RemoveCallbackPackage (UnregisterGameObject twoPkgState7 7) 0 7).freed.count
      0 = 2 := by
  decide

/-- C2 (amended): `unregisterGameObject(id)` frees every package in `id`'s
set and removes the set from the map; a subsequent `removePackage` for one
of those already-freed handles leaves the map unchanged (the registry map
stays valid), but it is not a no-op: the handle is unconditionally deleted
a second time — a double free. -/
theorem spec_C2_unregister_then_remove (s : State) (g : Nat)
    (l : PackageSet) (hk : KeysNodup s.map)
    (hfind : mapFind s.map g = some l) :
    mapFind (UnregisterGameObject s g).map g = none ∧
    (UnregisterGameObject s g).freed = s.freed ++ l ∧
    (∀ x ∈ l, lookupPkg (UnregisterGameObject s g).pkgs x = none) ∧
    (∀ pid, (RemoveCallbackPackage (UnregisterGameObject s g) pid g).map =
        (UnregisterGameObject s g).map ∧
      (RemoveCallbackPackage (UnregisterGameObject s g) pid g).freed =
        (UnregisterGameObject s g).freed ++ [pid]) := by
  have hu : UnregisterGameObject s g =
      { s with map := mapErase s.map g,
               pkgs := s.pkgs.filter (fun q => q.1 ∉ l),
               freed := s.freed ++ l } := by
    simp [UnregisterGameObject, hfind]
  have hnone : mapFind (mapErase s.map g) g = none :=
    mapFind_erase_self s.map g hk
  refine ⟨?_, ?_, ?_, ?_⟩
  · rw [hu]
    exact hnone
  · rw [hu]
  · intro x hx
    rw [hu]
    exact lookupPkg_filter_subset s.pkgs l x hx
  · intro pid
    refine ⟨?_, removeCallbackPackage_freed _ pid g⟩
    apply removeCallbackPackage_map_of_none
    rw [hu]
    exact hnone

/-- Witness for C2 (amended) on the two-package scenario for game object 7,
checking the already-freed handle 0. -/
theorem spec_C2_unregister_then_remove_witness :
    KeysNodup twoPkgState7.map ∧
      mapFind twoPkgState7.map 7 = some [0, 1] ∧
      (mapFind (UnregisterGameObject twoPkgState7 7).map 7 = none ∧
        (UnregisterGameObject twoPkgState7 7).freed =
          twoPkgState7.freed ++ [0, 1] ∧
        (∀ x ∈ ([0, 1] : PackageSet),
          lookupPkg (UnregisterGameObject twoPkgState7 7).pkgs x = none) ∧
        (∀ pid,
          (RemoveCallbackPackage (UnregisterGameObject twoPkgState7 7)
              pid 7).map = (UnregisterGameObject twoPkgState7 7).map ∧
          (RemoveCallbackPackage (UnregisterGameObject twoPkgState7 7)
              pid 7).freed =
            (UnregisterGameObject twoPkgState7 7).freed ++ [pid])) :=
  ⟨(by decide : (List.map Prod.fst twoPkgState7.map).Nodup), by decide,
    spec_C2_unregister_then_remove twoPkgState7 7 [0, 1]
      (by decide : (List.map Prod.fst twoPkgState7.map).Nodup) (by decide)⟩

/-- C7: destroying the registry frees every outstanding package across all
game objects (every live package is reachable from the map in reachable
states) and clears the process-wide instance pointer. -/
theorem spec_C7_destructor_drains (s : State)
    (hcover : ∀ pid ∈ livePkgIds s, pid ∈ mappedPkgIds s) :
    livePkgIds (DestroyManager s) = [] ∧
    (DestroyManager s).freed = s.freed ++ mappedPkgIds s ∧
    (DestroyManager s).hasInstance = false := by
  refine ⟨?_, rfl, rfl⟩
  simp only [livePkgIds, DestroyManager]
  rw [List.map_eq_nil_iff, List.filter_eq_nil_iff]
  intro a ha
  simp only [decide_not, Bool.not_eq_true', decide_eq_false_iff_not, not_not]
  exact hcover a.1 (List.mem_map_of_mem Prod.fst ha)

/-- Witness for C7 on a state with one outstanding package. -/
theorem spec_C7_destructor_drains_witness :
    (∀ pid ∈ livePkgIds oneCreateState, pid ∈ mappedPkgIds oneCreateState) ∧
      (livePkgIds (DestroyManager oneCreateState) = [] ∧
        (DestroyManager oneCreateState).freed =
          oneCreateState.freed ++ mappedPkgIds oneCreateState ∧
        (DestroyManager oneCreateState).hasInstance = false) :=
  ⟨by decide, spec_C7_destructor_drains oneCreateState (by decide)⟩
